import Mathlib

/-!
Verification of the FlightDataRecorder firmware (`src/FlightDataRecorder.ino`).

The firmware is a single sequential Arduino sketch: `setup` initialises the
status pixel, the BMP390 sensor and the SD card, allocates a sequentially
numbered CSV file and writes a header; `loop` polls the sensor every 50 ms and
appends one CSV row per successful poll.

The embedding below translates that sketch faithfully:
* machine integers are `Nat`/`Int`, with `% 2^32` taken explicitly where the
  C `unsigned long` arithmetic wraps (the target's `unsigned long` is 32-bit);
* the opaque collaborators (sensor, SD card, LED) are modelled by explicit
  environment records carrying the success/failure outcome of each external
  call and the data it returns;
* an open file is modelled as its list of completed lines plus the pending
  partial line built up by `print` calls, plus a dirty bit cleared by `flush`;
  each `print`/`println` consults the environment's write outcome for the
  current operation (the sketch itself never inspects the values these calls
  return);
* the `while (1);` fail-stop idiom is modelled as a terminal `halted` phase
  that every later step preserves;
* float formatting is outside the model: a `Reading` carries the already
  rendered text of each field, since no claim depends on numeric rendering.
-/

namespace FDR

/-- Color written to the single WS2812 status pixel (`leds[0]`). `Black` is the
power-on value before the sketch first assigns a color. -/
inductive CRGB
  | Black
  | Red
  | Green
deriving DecidableEq

/-- Whether the process is still making progress or is stuck in one of the
`while (1);` fail-stop loops of `setup`. -/
inductive Phase
  | running
  | halted
deriving DecidableEq

/-- An open output file: finished lines, the pending partial line produced by
`print` calls since the last `println`, and whether unflushed output exists. -/
structure DFile where
  lines : List String
  pending : String
  dirty : Bool
deriving DecidableEq

/-- A freshly created (empty) file. -/
def emptyFile : DFile := { lines := [], pending := "", dirty := false }

/-- Model of `File::print(s)`: appends `s` to the pending line when the
underlying write succeeds (`ok`); the sketch never checks the result. -/
def DFile.print (ok : Bool) (f : DFile) (s : String) : DFile :=
  if ok then { f with pending := f.pending ++ s, dirty := true } else f

/-- Model of `File::println(s)`: completes the pending line with `s` and a
newline when the underlying write succeeds; the sketch never checks the
result. -/
def DFile.println (ok : Bool) (f : DFile) (s : String) : DFile :=
  if ok then { lines := f.lines ++ [f.pending ++ s], pending := "", dirty := true } else f

/-- Model of `File::flush()`: forces buffered output to durable storage. -/
def DFile.flush (f : DFile) : DFile := { f with dirty := false }

/-- Source constant `FILE_PREFIX = "flight_"`. -/
def filePref : String := "flight_"

/-- Source constant `FILE_EXTENSION = ".csv"`. -/
def fileExt : String := ".csv"

/-- Arduino `String::startsWith`. -/
def strStartsWith (s p : String) : Bool := p.data.isPrefixOf s.data

/-- Arduino `String::endsWith`. -/
def strEndsWith (s p : String) : Bool := p.data.isSuffixOf s.data

/-- Arduino `String::substring(i, j)` in the in-range case the source uses
(`i ≤ j ≤ length`): the characters at indices `[i, j)`. -/
def substringAt (s : String) (i j : Nat) : String :=
  String.mk ((s.data.drop i).take (j - i))

/-- The text between the prefix and the extension of a directory entry, as
extracted at lines 80–81 of the source. -/
def numberPartOf (name : String) : String :=
  substringAt name filePref.length (name.length - fileExt.length)

/-- Characters treated as whitespace by `atol` (C `isspace`). -/
def isSpaceChar (c : Char) : Bool :=
  c == ' ' || c == '\t' || c == '\n' || c == '\r' || c == '\x0b' || c == '\x0c'

/-- Digit-run accumulator of `atol`: consume decimal digits, stop at the first
non-digit. -/
def atolDigits : List Char → Nat → Nat
  | [], acc => acc
  | c :: cs, acc => if c.isDigit then atolDigits cs (acc * 10 + (c.toNat - 48)) else acc

/-- Sign handling of `atol`: an optional single `-` or `+` before the digit
run. -/
def atolSigned : List Char → Int
  | [] => 0
  | c :: cs =>
    if c == '-' then -(atolDigits cs 0 : Int)
    else if c == '+' then (atolDigits cs 0 : Int)
    else (atolDigits (c :: cs) 0 : Int)

/-- Arduino `String::toInt` (`atol` semantics): skip leading whitespace, parse
an optional sign and the leading digit run, return 0 when no digits are found.
Faithful whenever the digit run's value fits the target's 32-bit `long`;
overflowing directory entries are outside the model. -/
def toIntModel (s : String) : Int := atolSigned (s.data.dropWhile isSpaceChar)

/-- Loop body of `findNextFileNumber` for one directory entry (source lines
72–94): entries that start with the prefix and end with the extension have the
text in between parsed by `toInt`, and the running maximum is updated when the
parsed value exceeds it. -/
def scanFile (maxNumber : Int) (fileName : String) : Int :=
  if strStartsWith fileName filePref && strEndsWith fileName fileExt then
    let numberPart := numberPartOf fileName
    let currentNumber := toIntModel numberPart
    if currentNumber > maxNumber then currentNumber else maxNumber
  else maxNumber

/-- Source `findNextFileNumber()` over the root directory listing `files`;
`rootOk` models whether `SD_MMC.open("/")` succeeds (on failure the source
returns 0 without scanning). The source accumulates `maxNumber` in a 32-bit
`int`; the embedding computes with the ideal integer, and the allocation
theorem therefore carries a hypothesis confining every parsed value to the
range on which `long` parsing is exact and `maxNumber + 1` cannot overflow
`int`, so that on that domain the ideal computation and the machine one
coincide. -/
def findNextFileNumber (rootOk : Bool) (files : List String) : Int :=
  if rootOk then (files.foldl scanFile 0) + 1 else 0

/-- Decimal digits of `n`, least significant first, as characters. The first
argument is fuel; `n` itself is always sufficient fuel. -/
def digitsRevAux : Nat → Nat → List Char
  | 0, _ => []
  | fuel + 1, n => if n = 0 then [] else Char.ofNat (48 + n % 10) :: digitsRevAux fuel (n / 10)

/-- Decimal rendering of a natural number, as Arduino `String(number)` produces
for the nonnegative values the sketch passes. -/
def numToString (n : Nat) : String :=
  if n = 0 then "0" else String.mk (digitsRevAux n n).reverse

/-- The `while (result.length() < width)` loop of `padNumber`, prepending one
`"0"` per iteration. The fuel counts remaining iterations; since every
iteration grows the string by one character, `width` iterations always
suffice. -/
def padLoop (width : Nat) : Nat → String → String
  | 0, result => result
  | fuel + 1, result =>
    if result.length < width then padLoop width fuel ("0" ++ result) else result

/-- Source helper `padNumber(int number, int width)` for the nonnegative
numbers it receives: render in decimal, then left-pad with zeros to `width`. -/
def padNumber (number : Nat) (width : Nat) : String :=
  padLoop width width (numToString number)

/-- Numeric value of a string of decimal digit characters (most significant
first). -/
def natOfDigits (cs : List Char) : Nat :=
  cs.foldl (fun a c => a * 10 + (c.toNat - 48)) 0

/-- Whether a filename matches the spec's pattern `flight_<digits>.csv`
exactly: right prefix, right extension and a nonempty all-digit run in
between. -/
def matchesPattern (name : String) : Bool :=
  strStartsWith name filePref && strEndsWith name fileExt &&
  !(numberPartOf name).data.isEmpty &&
  (numberPartOf name).data.all (fun c => c.isDigit)

/-- Sequence number of a filename matching `flight_<digits>.csv`: the value of
its digit run. -/
def seqNumber (name : String) : Nat := natOfDigits (numberPartOf name).data

/-- Follows the claim's words, for comparison with `findNextFileNumber`: the
maximum of the parsed numbers of the filenames matching the pattern exactly,
plus one (so 1 when no filename matches). -/
def claimedNextFileNumber (files : List String) : Int :=
  ((files.filter (fun n => matchesPattern n)).map (fun n => (seqNumber n : Int))).foldl
    (fun a b => max a b) 0 + 1

/-- Filenames the source's scan actually reacts to: right prefix and right
extension, digits not required. -/
def looseMatch (name : String) : Bool :=
  strStartsWith name filePref && strEndsWith name fileExt

/-- Value `toInt` extracts from a directory entry's middle part: its leading
digit run (0 if none). -/
def leadVal (name : String) : Int := toIntModel (numberPartOf name)

/-- One reading of the BMP390, with each field already rendered to the text the
sketch prints (`millis()` for the timestamp, `Print`'s float rendering for the
rest). -/
structure Reading where
  timestamp : String
  altitude : String
  pressure : String
  temperature : String
deriving DecidableEq

/-- The CSV row the sketch prints for a reading: the four fields separated by
commas, completed as one line by the final `println`. -/
def formatRow (r : Reading) : String :=
  r.timestamp ++ "," ++ r.altitude ++ "," ++ r.pressure ++ "," ++ r.temperature

/-- The CSV header written at the end of `setup`. -/
def headerLine : String := "Timestamp,Altitude(m),Pressure(hPa),Temperature(C)"

/-- The whole program state: the status pixel, the history of colors pushed by
`FastLED.show()`, the fail-stop phase, the session file name and handle, and
the `lastReadTime` timing variable (an `unsigned long`, kept reduced mod 2^32). -/
structure SysState where
  led : CRGB
  shows : List CRGB
  phase : Phase
  dataFileName : String
  dataFile : DFile
  lastReadTime : Nat
deriving DecidableEq

/-- Model of `FastLED.show()`: pushes the current pixel color to the physical
LED; the history records every pushed color in order. -/
def fastLEDShow (st : SysState) : SysState :=
  { st with shows := st.shows ++ [st.led] }

/-- State at power-on, before `setup` runs. -/
def initialState : SysState :=
  { led := CRGB.Black, shows := [], phase := Phase.running,
    dataFileName := "", dataFile := emptyFile, lastReadTime := 0 }

/-- Model of the `while (1);` fail-stop idiom: enter the terminal phase. -/
def halt (st : SysState) : SysState := { st with phase := Phase.halted }

/-- Outcomes of the external calls made during `setup`: `bmp.begin_I2C()`,
`SD_MMC.setPins(...)`, `SD_MMC.begin()`, `SD_MMC.open("/")` with the root
directory listing, `SD_MMC.open(dataFileName, FILE_WRITE)`, and whether the
header `println`'s underlying write persists. -/
structure BootEnv where
  sensorOk : Bool
  setPinsOk : Bool
  sdBeginOk : Bool
  rootOk : Bool
  files : List String
  openOk : Bool
  headerWriteOk : Bool
deriving DecidableEq

/-- Source `setup()`: red pixel shown first; fail-stop on sensor, SD-pin, SD
mount and file-creation failure; on success the numbered file is created, the
header is printed and flushed (results unchecked) and the pixel turns green. -/
def setup (env : BootEnv) : SysState :=
  let st0 := fastLEDShow { initialState with led := CRGB.Red }
  if env.sensorOk = false then halt st0
  else if env.setPinsOk = false then halt st0
  else if env.sdBeginOk = false then halt st0
  else
    let fileNumber := findNextFileNumber env.rootOk env.files
    let name := "/" ++ filePref ++ padNumber fileNumber.toNat 5 ++ fileExt
    let st1 := { st0 with dataFileName := name }
    if env.openOk = false then halt st1
    else
      let f := DFile.flush (DFile.println env.headerWriteOk emptyFile headerLine)
      fastLEDShow { st1 with dataFile := f, led := CRGB.Green }

/-- Outcomes of the external calls one `recordDataPoint` makes:
`bmp.performReading()` with the rendered reading on success, and whether the
underlying storage accepts this tick's writes (the sketch never inspects the
`print`/`flush` results). -/
structure TickEnv where
  pollOk : Bool
  reading : Reading
  writeOk : Bool
deriving DecidableEq

/-- Source `recordDataPoint()`: on a successful poll, print the four fields
comma-separated, finish the line, flush, and show green; on a failed poll,
write nothing and show red. Never halts. -/
def recordDataPoint (env : TickEnv) (st : SysState) : SysState :=
  if env.pollOk then
    let f := st.dataFile
    let f := DFile.print env.writeOk f env.reading.timestamp
    let f := DFile.print env.writeOk f ","
    let f := DFile.print env.writeOk f env.reading.altitude
    let f := DFile.print env.writeOk f ","
    let f := DFile.print env.writeOk f env.reading.pressure
    let f := DFile.print env.writeOk f ","
    let f := DFile.println env.writeOk f env.reading.temperature
    let f := DFile.flush f
    fastLEDShow { st with dataFile := f, led := CRGB.Green }
  else
    fastLEDShow { st with led := CRGB.Red }

/-- Source constant `READ_INTERVAL` (ms). -/
def READ_INTERVAL : Nat := 50

/-- Modulus of the target's 32-bit `unsigned long`. -/
def U32 : Nat := 4294967296

/-- C unsigned 32-bit subtraction `a - b`, as `currentTime - lastReadTime` is
computed on `unsigned long` operands. -/
def usub32 (a b : Nat) : Nat := (a % U32 + U32 - b % U32) % U32

/-- Source `loop()` body at clock value `currentTime` (`millis()`): take a
reading when at least `READ_INTERVAL` has elapsed since `lastReadTime` in
wrapping arithmetic, then advance `lastReadTime` to `currentTime`; otherwise do
nothing. -/
def loop (env : TickEnv) (currentTime : Nat) (st : SysState) : SysState :=
  if READ_INTERVAL ≤ usub32 currentTime st.lastReadTime then
    { recordDataPoint env st with lastReadTime := currentTime }
  else st

/-- One scheduler step of the whole process: a halted process makes no
progress; otherwise the `loop` body runs. -/
def step (env : TickEnv) (currentTime : Nat) (st : SysState) : SysState :=
  if st.phase = Phase.halted then st else loop env currentTime st

/-- Run the process over a sequence of loop iterations, each with its
`millis()` value and external-call outcomes. -/
def run (ticks : List (Nat × TickEnv)) (st : SysState) : SysState :=
  ticks.foldl (fun s t => step t.2 t.1 s) st

/-- Record a list of readings back-to-back, every poll and every write
succeeding (the claim's notion of N successful recordings). -/
def recordAll (rs : List Reading) (st : SysState) : SysState :=
  rs.foldl (fun s r => recordDataPoint { pollOk := true, reading := r, writeOk := true } s) st

/-- A boot environment in which every external call succeeds and the card is
empty. -/
def bootAllOk : BootEnv :=
  { sensorOk := true, setPinsOk := true, sdBeginOk := true, rootOk := true,
    files := [], openOk := true, headerWriteOk := true }

/-- The first reading of the spec's end-to-end scenario. -/
def readingA : Reading :=
  { timestamp := "1000", altitude := "12.50", pressure := "1008.20", temperature := "22.10" }

/-- The second reading of the spec's end-to-end scenario. -/
def readingB : Reading :=
  { timestamp := "1050", altitude := "12.70", pressure := "1008.10", temperature := "22.10" }

/-- A tick whose poll and writes succeed. -/
def tickOkA : TickEnv := { pollOk := true, reading := readingA, writeOk := true }

/-- A tick whose sensor poll fails. -/
def tickFail : TickEnv := { pollOk := false, reading := readingA, writeOk := true }

/-- A tick whose poll succeeds but whose storage writes are lost. -/
def tickNoWrite : TickEnv := { pollOk := true, reading := readingA, writeOk := false }

/-- A boot environment whose sensor cannot be reached. -/
def bootNoSensor : BootEnv := { bootAllOk with sensorOk := false }

/-- A boot environment in which everything succeeds except the header write. -/
def bootNoHeader : BootEnv := { bootAllOk with headerWriteOk := false }

theorem mk_length (l : List Char) : (String.mk l).length = l.length := rfl

theorem str_empty_append (s : String) : "" ++ s = s := by
  cases s
  rfl

theorem str_data_cons_zero (s : String) : ("0" ++ s).data = '0' :: s.data := by
  rw [String.data_append]
  rfl

/-- The padding loop, run with enough fuel, prepends exactly the zeros needed
to reach `width`. -/
theorem padLoop_data (width : Nat) :
    ∀ (fuel : Nat) (s : String), width - s.length ≤ fuel →
      (padLoop width fuel s).data = List.replicate (width - s.length) '0' ++ s.data := by
  intro fuel
  induction fuel with
  | zero =>
    intro s h
    have h0 : width - s.length = 0 := Nat.le_zero.mp h
    simp [padLoop, h0]
  | succ m ih =>
    intro s h
    by_cases hlt : s.length < width
    · have hlen : ("0" ++ s).length = s.length + 1 :=
        congrArg List.length (str_data_cons_zero s)
      have h2 : width - ("0" ++ s).length ≤ m := by rw [hlen]; omega
      have hrec := ih ("0" ++ s) h2
      rw [padLoop, if_pos hlt, hrec, hlen, str_data_cons_zero]
      have hsplit : width - s.length = (width - (s.length + 1)) + 1 := by omega
      rw [hsplit, List.replicate_succ', List.append_assoc]
      rfl
    · have h0 : width - s.length = 0 := by omega
      rw [padLoop, if_neg hlt, h0]
      rfl

/-- Truncated digit extraction never produces more digits than the bound the
input satisfies. -/
theorem digitsRevAux_length : ∀ (fuel n k : Nat), n < 10 ^ k → (digitsRevAux fuel n).length ≤ k := by
  intro fuel
  induction fuel with
  | zero => intro n k _; simp [digitsRevAux]
  | succ m ih =>
    intro n k h
    by_cases hn : n = 0
    · simp [digitsRevAux, hn]
    · have hk : k ≠ 0 := by
        intro hk0
        rw [hk0, pow_zero] at h
        omega
      obtain ⟨k', rfl⟩ : ∃ k', k = k' + 1 := ⟨k - 1, by omega⟩
      have hdiv : n / 10 < 10 ^ k' := by
        apply Nat.div_lt_of_lt_mul
        calc n < 10 ^ (k' + 1) := h
          _ = 10 * 10 ^ k' := by ring
      rw [digitsRevAux, if_neg hn]
      simpa using ih (n / 10) k' hdiv

/-- Every character produced by digit extraction is a decimal digit. -/
theorem digitsRevAux_digits : ∀ (fuel n : Nat), ∀ c ∈ digitsRevAux fuel n, c.isDigit = true := by
  have hd : ∀ d : Nat, d < 10 → (Char.ofNat (48 + d)).isDigit = true := by decide
  intro fuel
  induction fuel with
  | zero => intro n c hc; simp [digitsRevAux] at hc
  | succ m ih =>
    intro n c hc
    by_cases hn : n = 0
    · simp [digitsRevAux, hn] at hc
    · rw [digitsRevAux, if_neg hn] at hc
      rcases List.mem_cons.mp hc with h | h
      · rw [h]; exact hd (n % 10) (Nat.mod_lt n (by omega))
      · exact ih (n / 10) c h

/-- Reading the extracted digits back (most significant first) recovers the
number, given enough fuel. -/
theorem digitsRevAux_val : ∀ (fuel n : Nat), n ≤ fuel → natOfDigits (digitsRevAux fuel n).reverse = n := by
  have ht : ∀ d : Nat, d < 10 → (Char.ofNat (48 + d)).toNat = 48 + d := by decide
  intro fuel
  induction fuel with
  | zero =>
    intro n h
    have : n = 0 := Nat.le_zero.mp h
    simp [digitsRevAux, natOfDigits, this]
  | succ m ih =>
    intro n h
    by_cases hn : n = 0
    · simp [digitsRevAux, hn, natOfDigits]
    · rw [digitsRevAux, if_neg hn]
      have hfuel : n / 10 ≤ m := by
        have := Nat.div_lt_self (by omega : 0 < n) (by omega : 1 < 10)
        omega
      have hrec := ih (n / 10) hfuel
      simp only [natOfDigits, List.reverse_cons, List.foldl_append, List.foldl_cons, List.foldl_nil]
      simp only [natOfDigits] at hrec
      rw [hrec, ht (n % 10) (Nat.mod_lt n (by omega))]
      omega

/-- Leading zeros do not change the value of a digit string. -/
theorem natOfDigits_zero_prepend (k : Nat) (ds : List Char) :
    natOfDigits (List.replicate k '0' ++ ds) = natOfDigits ds := by
  have hz : ∀ j : Nat, List.foldl (fun a c => a * 10 + (c.toNat - 48)) 0 (List.replicate j '0') = 0 := by
    intro j
    induction j with
    | zero => rfl
    | succ i ih => simpa [List.replicate_succ] using ih
  simp only [natOfDigits, List.foldl_append, hz]

/-- C6: for every sequence number from 1 to 99999, `padNumber n 5` — the
numeric field of the produced filename — has exactly 5 characters, all decimal
digits, consists of the decimal rendering of `n` left-padded with zeros, and
still denotes `n`. -/
theorem padNumber_five_digits (n : Nat) (h1 : 1 ≤ n) (h2 : n ≤ 99999) :
    (padNumber n 5).length = 5 ∧
    (padNumber n 5).data = List.replicate (5 - (numToString n).length) '0' ++ (numToString n).data ∧
    (∀ c ∈ (padNumber n 5).data, c.isDigit = true) ∧
    natOfDigits (padNumber n 5).data = n := by
  have hn : n ≠ 0 := by omega
  have hdata : (numToString n).data = (digitsRevAux n n).reverse := by
    rw [numToString, if_neg hn]
  have hlen : (numToString n).length ≤ 5 := by
    have hb := digitsRevAux_length n n 5 (by norm_num; omega)
    have : (numToString n).length = (digitsRevAux n n).length := by
      rw [numToString, if_neg hn, mk_length, List.length_reverse]
    omega
  have hpad : (padNumber n 5).data
      = List.replicate (5 - (numToString n).length) '0' ++ (numToString n).data :=
    padLoop_data 5 5 (numToString n) (by omega)
  refine ⟨?_, hpad, ?_, ?_⟩
  · have : (padNumber n 5).length = (padNumber n 5).data.length := rfl
    rw [this, hpad, List.length_append, List.length_replicate]
    have : (numToString n).data.length = (numToString n).length := rfl
    omega
  · intro c hc
    rw [hpad] at hc
    rcases List.mem_append.mp hc with h | h
    · rw [List.eq_of_mem_replicate h]
      decide
    · rw [hdata] at h
      exact digitsRevAux_digits n n c (List.mem_reverse.mp h)
  · rw [hpad, natOfDigits_zero_prepend, hdata]
    exact digitsRevAux_val n n (Nat.le_refl n)

/-- Witness for C6 at sequence number 4: the numeric field is `00004`. -/
theorem padNumber_five_digits_witness :
    padNumber 4 5 = "00004" ∧ (padNumber 4 5).length = 5 ∧ natOfDigits (padNumber 4 5).data = 4 :=
  ⟨by decide, (padNumber_five_digits 4 (by decide) (by decide)).1,
   (padNumber_five_digits 4 (by decide) (by decide)).2.2.2⟩

/-- The scan body is a guarded maximum. -/
theorem scanFile_eq_max (m : Int) (name : String) :
    scanFile m name = if looseMatch name then max m (leadVal name) else m := by
  rw [scanFile, looseMatch, leadVal, numberPartOf]
  by_cases h : (strStartsWith name filePref && strEndsWith name fileExt) = true
  · rw [if_pos h, if_pos h]
    rcases le_or_lt (toIntModel (substringAt name filePref.length (name.length - fileExt.length))) m
      with hle | hgt
    · rw [if_neg (not_lt.mpr hle), max_eq_left hle]
    · rw [if_pos hgt, max_eq_right hgt.le]
  · rw [if_neg h, if_neg h]

/-- Folding the scan body equals folding `max` over the parsed values of the
entries with the right prefix and extension. -/
theorem foldl_scanFile_eq : ∀ (files : List String) (m : Int),
    files.foldl scanFile m = ((files.filter looseMatch).map leadVal).foldl (fun a b => max a b) m := by
  intro files
  induction files with
  | nil => intro m; rfl
  | cons name rest ih =>
    intro m
    by_cases h : looseMatch name = true
    · rw [List.foldl_cons, scanFile_eq_max, if_pos h, List.filter_cons_of_pos h,
        List.map_cons, List.foldl_cons]
      exact ih (max m (leadVal name))
    · rw [List.foldl_cons, scanFile_eq_max, if_neg h,
        List.filter_cons_of_neg (by simpa using h)]
      exact ih m

/-- The seed of a `max` fold never exceeds the result. -/
theorem foldl_max_init_le : ∀ (l : List Int) (m : Int), m ≤ l.foldl (fun a b => max a b) m := by
  intro l
  induction l with
  | nil => intro m; exact le_refl m
  | cons x xs ih =>
    intro m
    exact le_trans (le_max_left m x) (ih (max m x))

/-- A `max` fold stays below any bound dominating the seed and every member. -/
theorem foldl_max_le_bound : ∀ (l : List Int) (m B : Int), m ≤ B → (∀ a ∈ l, a ≤ B) →
    l.foldl (fun a b => max a b) m ≤ B := by
  intro l
  induction l with
  | nil => intro m B hm _; exact hm
  | cons x xs ih =>
    intro m B hm hall
    rw [List.foldl_cons]
    exact ih (max m x) B (max_le hm (hall x (List.mem_cons_self x xs)))
      (fun a ha => hall a (List.mem_cons_of_mem x ha))

/-- Every member of the list is below the result of a `max` fold. -/
theorem foldl_max_mem_le : ∀ (l : List Int) (m a : Int), a ∈ l → a ≤ l.foldl (fun a b => max a b) m := by
  intro l
  induction l with
  | nil => intro m a ha; simp at ha
  | cons x xs ih =>
    intro m a ha
    rcases List.mem_cons.mp ha with h | h
    · rw [h, List.foldl_cons]
      exact le_trans (le_max_right m x) (foldl_max_init_le xs (max m x))
    · rw [List.foldl_cons]
      exact ih (max m x) a h

/-- A digit character is not a sign character and not whitespace. -/
theorem digit_not_special (c : Char) (h : c.isDigit = true) :
    ((c == '-') = false) ∧ ((c == '+') = false) ∧ isSpaceChar c = false := by
  refine ⟨?_, ?_, ?_⟩
  · have hne : c ≠ '-' := by
      intro e
      rw [e] at h
      exact absurd h (by decide)
    exact beq_eq_false_iff_ne.mpr hne
  · have hne : c ≠ '+' := by
      intro e
      rw [e] at h
      exact absurd h (by decide)
    exact beq_eq_false_iff_ne.mpr hne
  · cases hs : isSpaceChar c with
    | false => rfl
    | true =>
      exfalso
      rw [isSpaceChar] at hs
      simp only [Bool.or_eq_true, beq_iff_eq] at hs
      rcases hs with ((((rfl | rfl) | rfl) | rfl) | rfl) | rfl <;> exact absurd h (by decide)

/-- On an all-digit tail, the `atol` digit accumulator consumes everything. -/
theorem atolDigits_all : ∀ (cs : List Char) (acc : Nat), (∀ c ∈ cs, c.isDigit = true) →
    atolDigits cs acc = cs.foldl (fun a c => a * 10 + (c.toNat - 48)) acc := by
  intro cs
  induction cs with
  | nil => intro acc _; rfl
  | cons c rest ih =>
    intro acc h
    have hc : c.isDigit = true := h c (List.mem_cons_self c rest)
    rw [atolDigits, if_pos hc, List.foldl_cons]
    exact ih _ (fun d hd => h d (List.mem_cons_of_mem c hd))

/-- On a nonempty all-digit string, `toInt` returns exactly the digit-string
value. -/
theorem toIntModel_digits (s : String) (hne : s.data ≠ [])
    (hdig : ∀ c ∈ s.data, c.isDigit = true) :
    toIntModel s = (natOfDigits s.data : Int) := by
  obtain ⟨c, cs, hcs⟩ : ∃ c cs, s.data = c :: cs := by
    cases hd : s.data with
    | nil => exact absurd hd hne
    | cons c cs => exact ⟨c, cs, rfl⟩
  have hc : c.isDigit = true := hdig c (by rw [hcs]; exact List.mem_cons_self c cs)
  obtain ⟨h1, h2, h3⟩ := digit_not_special c hc
  rw [toIntModel, hcs, List.dropWhile_cons, if_neg (by rw [h3]; exact Bool.false_ne_true),
    atolSigned, if_neg (by rw [h1]; exact Bool.false_ne_true),
    if_neg (by rw [h2]; exact Bool.false_ne_true),
    atolDigits_all (c :: cs) 0 (by rw [← hcs]; exact hdig), natOfDigits]

/-- C1 counterexample: the directory entry `flight_7x.csv` does not match the
pattern `flight_<digits>.csv`, yet the allocator parses its leading digit `7`
and returns 8, where the claim demands 1. -/
theorem findNextFileNumber_claim_false :
    findNextFileNumber true ["flight_7x.csv"] = 8 ∧
    matchesPattern "flight_7x.csv" = false ∧
    claimedNextFileNumber ["flight_7x.csv"] = 1 := by
  decide

/-- C1 (amended): on every directory whose prefix-and-extension-matching
entries all parse — by `toInt`'s leading-digit-run rule — to values inside the
target's integer range (at most 2147483646, at least −2147483648, so that the
32-bit `long` parse is exact and `maxNumber + 1` cannot overflow the 32-bit
`int`; directories violating this make the program's arithmetic overflow and
are outside the claim), the allocator returns one plus the maximum (clamped
below by 0) of those parsed values; entries without that prefix and extension
never influence the result (so an empty directory yields 1); the whole
computation stays within `int` range (between 1 and 2147483647); and the
result is strictly greater than the sequence number of every entry matching
`flight_<digits>.csv` exactly. -/
theorem findNextFileNumber_spec (files : List String)
    (hbound : ∀ name ∈ files, looseMatch name = true →
      -2147483648 ≤ leadVal name ∧ leadVal name ≤ 2147483646) :
    findNextFileNumber true files
      = ((files.filter looseMatch).map leadVal).foldl (fun a b => max a b) 0 + 1 ∧
    1 ≤ findNextFileNumber true files ∧
    findNextFileNumber true files ≤ 2147483647 ∧
    ∀ name ∈ files, matchesPattern name = true →
      (seqNumber name : Int) < findNextFileNumber true files := by
  have hmain : findNextFileNumber true files
      = ((files.filter looseMatch).map leadVal).foldl (fun a b => max a b) 0 + 1 := by
    rw [findNextFileNumber, if_pos rfl, foldl_scanFile_eq]
  have hmemBound : ∀ a ∈ (files.filter looseMatch).map leadVal, a ≤ 2147483646 := by
    intro a ha
    obtain ⟨name, hname, rfl⟩ := List.mem_map.mp ha
    obtain ⟨hmemf, hloosef⟩ := List.mem_filter.mp hname
    exact (hbound name hmemf hloosef).2
  have hlow : (1 : Int) ≤ findNextFileNumber true files := by
    rw [hmain]
    have := foldl_max_init_le ((files.filter looseMatch).map leadVal) 0
    omega
  have hhigh : findNextFileNumber true files ≤ 2147483647 := by
    rw [hmain]
    have := foldl_max_le_bound ((files.filter looseMatch).map leadVal) 0 2147483646
      (by omega) hmemBound
    omega
  refine ⟨hmain, hlow, hhigh, ?_⟩
  intro name hmem hmatch
  rw [matchesPattern] at hmatch
  simp only [Bool.and_eq_true] at hmatch
  obtain ⟨⟨⟨hpre, hext⟩, hnonempty⟩, hall⟩ := hmatch
  have hloose : looseMatch name = true := by
    rw [looseMatch, hpre, hext]
    rfl
  have hdig : ∀ c ∈ (numberPartOf name).data, c.isDigit = true := by
    intro c hc
    have := List.all_eq_true.mp hall c hc
    simpa using this
  have hne : (numberPartOf name).data ≠ [] := by
    intro h0
    rw [List.isEmpty_eq_true.mpr h0] at hnonempty
    simp at hnonempty
  have hval : leadVal name = (seqNumber name : Int) := by
    rw [leadVal, seqNumber]
    exact toIntModel_digits (numberPartOf name) hne hdig
  have hmem2 : leadVal name ∈ (files.filter looseMatch).map leadVal :=
    List.mem_map_of_mem leadVal (List.mem_filter.mpr ⟨hmem, hloose⟩)
  have hle := foldl_max_mem_le ((files.filter looseMatch).map leadVal) 0 (leadVal name) hmem2
  rw [hmain, ← hval]
  omega

/-- Witness for C1's amended theorem on the spec's end-to-end directory
`flight_00003.csv`, `notes.txt` (all parsed values inside `int` range):
allocation yields number 4, within range and strictly above 3. -/
theorem findNextFileNumber_spec_witness :
    findNextFileNumber true ["flight_00003.csv", "notes.txt"] = 4 ∧
    findNextFileNumber true ["flight_00003.csv", "notes.txt"] ≤ 2147483647 ∧
    (seqNumber "flight_00003.csv" : Int)
      < findNextFileNumber true ["flight_00003.csv", "notes.txt"] :=
  ⟨by decide,
   (findNextFileNumber_spec ["flight_00003.csv", "notes.txt"] (by decide)).2.2.1,
   (findNextFileNumber_spec ["flight_00003.csv", "notes.txt"] (by decide)).2.2.2
     "flight_00003.csv" (by decide) (by decide)⟩

/-- A halted process never changes again, over any sequence of loop
iterations. -/
theorem run_halted : ∀ (ticks : List (Nat × TickEnv)) (st : SysState),
    st.phase = Phase.halted → run ticks st = st := by
  intro ticks
  induction ticks with
  | nil => intro st _; rfl
  | cons t ts ih =>
    intro st h
    have hstep : step t.2 t.1 st = st := by rw [step, if_pos h]
    show run ts (step t.2 t.1 st) = st
    rw [hstep]
    exact ih st h

/-- Any failing startup step leaves the process halted, the pixel red, the
show history at exactly the initial red, and the file untouched. -/
theorem setup_fail_aux (env : BootEnv)
    (h : env.sensorOk = false ∨ env.setPinsOk = false ∨ env.sdBeginOk = false ∨ env.openOk = false) :
    (setup env).phase = Phase.halted ∧
    (setup env).led = CRGB.Red ∧
    (setup env).shows = [CRGB.Red] ∧
    (setup env).dataFile = emptyFile := by
  cases h1 : env.sensorOk <;> cases h2 : env.setPinsOk <;> cases h3 : env.sdBeginOk <;>
    cases h4 : env.openOk <;>
    simp_all [setup, halt, fastLEDShow, initialState]

/-- A successful startup ends running, with the pixel green and the header
line as the file's sole content when the header write persisted. -/
theorem setup_ok_aux (env : BootEnv)
    (hs : env.sensorOk = true) (hp : env.setPinsOk = true) (hb : env.sdBeginOk = true)
    (ho : env.openOk = true) :
    (setup env).phase = Phase.running ∧
    (setup env).led = CRGB.Green ∧
    (setup env).shows = [CRGB.Red, CRGB.Green] ∧
    (env.headerWriteOk = true →
      (setup env).dataFile
        = { lines := [headerLine], pending := "", dirty := false }) ∧
    (env.headerWriteOk = false → (setup env).dataFile = emptyFile) := by
  cases hw : env.headerWriteOk <;>
    simp_all [setup, halt, fastLEDShow, initialState, DFile.println, DFile.flush, emptyFile,
      str_empty_append]

/-- The show history of every boot starts with red. -/
theorem setup_shows_head (env : BootEnv) : (setup env).shows.head? = some CRGB.Red := by
  by_cases h : env.sensorOk = true ∧ env.setPinsOk = true ∧ env.sdBeginOk = true ∧ env.openOk = true
  · rw [(setup_ok_aux env h.1 h.2.1 h.2.2.1 h.2.2.2).2.2.1]
    rfl
  · have h' : env.sensorOk = false ∨ env.setPinsOk = false ∨ env.sdBeginOk = false ∨
        env.openOk = false := by
      by_cases h1 : env.sensorOk = true
      · by_cases h2 : env.setPinsOk = true
        · by_cases h3 : env.sdBeginOk = true
          · by_cases h4 : env.openOk = true
            · exact absurd ⟨h1, h2, h3, h4⟩ h
            · exact Or.inr (Or.inr (Or.inr (Bool.eq_false_iff.mpr h4)))
          · exact Or.inr (Or.inr (Or.inl (Bool.eq_false_iff.mpr h3)))
        · exact Or.inr (Or.inl (Bool.eq_false_iff.mpr h2))
      · exact Or.inl (Bool.eq_false_iff.mpr h1)
    rw [(setup_fail_aux env h').2.2.1]
    rfl

/-- A failed poll pushes red and changes nothing else. -/
theorem record_fail (env : TickEnv) (st : SysState) (h : env.pollOk = false) :
    recordDataPoint env st = { st with led := CRGB.Red, shows := st.shows ++ [CRGB.Red] } := by
  rw [recordDataPoint, if_neg (by rw [h]; exact Bool.false_ne_true)]
  rfl

/-- A successful poll pushes green, whatever happens to the writes. -/
theorem record_green (env : TickEnv) (st : SysState) (h : env.pollOk = true) :
    (recordDataPoint env st).led = CRGB.Green := by
  rw [recordDataPoint, if_pos h]
  rfl

/-- `recordDataPoint` never changes the phase: soft failures never halt. -/
theorem record_phase (env : TickEnv) (st : SysState) :
    (recordDataPoint env st).phase = st.phase := by
  rw [recordDataPoint]
  by_cases h : env.pollOk = true
  · rw [if_pos h]; rfl
  · rw [if_neg h]; rfl

/-- A successful poll whose writes persist appends exactly the formatted row
and leaves the file flushed, provided no partial line was pending. -/
theorem record_ok (env : TickEnv) (st : SysState) (h : env.pollOk = true)
    (hw : env.writeOk = true) (hpend : st.dataFile.pending = "") :
    recordDataPoint env st =
      { st with
        dataFile := { lines := st.dataFile.lines ++ [formatRow env.reading],
                      pending := "", dirty := false },
        led := CRGB.Green, shows := st.shows ++ [CRGB.Green] } := by
  rw [recordDataPoint, if_pos h]
  simp [DFile.print, DFile.println, DFile.flush, fastLEDShow, hw, hpend, formatRow,
    str_empty_append]

/-- C2: whenever a startup step fails — sensor unreachable, SD pins
unassignable, SD unmountable, or the data file uncreatable — the process is
permanently halted with the pixel red, and no line (header included) is ever
appended: the state never changes again under any further loop iterations. -/
theorem setup_failStop (env : BootEnv)
    (h : env.sensorOk = false ∨ env.setPinsOk = false ∨ env.sdBeginOk = false ∨
      env.openOk = false) :
    (setup env).phase = Phase.halted ∧
    (setup env).led = CRGB.Red ∧
    (setup env).dataFile.lines = [] ∧
    (setup env).dataFile.pending = "" ∧
    ∀ ticks, run ticks (setup env) = setup env := by
  obtain ⟨hp, hl, _, hf⟩ := setup_fail_aux env h
  exact ⟨hp, hl, by rw [hf]; rfl, by rw [hf]; rfl, fun ticks => run_halted ticks (setup env) hp⟩

/-- Witness for C2 with the sensor unreachable, including two later loop
iterations that change nothing. -/
theorem setup_failStop_witness :
    (setup bootNoSensor).phase = Phase.halted ∧
    (setup bootNoSensor).led = CRGB.Red ∧
    (setup bootNoSensor).dataFile.lines = [] ∧
    run [(60, tickOkA), (120, tickOkA)] (setup bootNoSensor) = setup bootNoSensor := by
  have h := setup_failStop bootNoSensor (Or.inl rfl)
  exact ⟨h.1, h.2.1, h.2.2.1, h.2.2.2.2 [(60, tickOkA), (120, tickOkA)]⟩

/-- C3 counterexample: with every startup step succeeding but the header write
failing, the process does not halt — it reaches the running phase with the
pixel green and an empty file, because the header `println`'s result is never
checked. -/
theorem header_failure_not_fatal :
    (setup bootNoHeader).phase = Phase.running ∧
    (setup bootNoHeader).led = CRGB.Green ∧
    (setup bootNoHeader).dataFile.lines = [] := by
  decide

/-- C3 (amended): the header write's outcome is not checked, so its failure is
not fatal: after the fallible startup steps succeed, the process always
reaches the running phase with the pixel green; when the header write
persists, the header `Timestamp,Altitude(m),Pressure(hPa),Temperature(C)` is
the file's sole line, written and flushed exactly once immediately after file
creation and before any data row; when it fails the file is simply left
empty. -/
theorem setup_header_once (env : BootEnv)
    (hs : env.sensorOk = true) (hp : env.setPinsOk = true) (hb : env.sdBeginOk = true)
    (ho : env.openOk = true) :
    (setup env).phase = Phase.running ∧
    (setup env).led = CRGB.Green ∧
    (env.headerWriteOk = true →
      (setup env).dataFile.lines = [headerLine] ∧
      (setup env).dataFile.pending = "" ∧
      (setup env).dataFile.dirty = false) ∧
    (env.headerWriteOk = false → (setup env).dataFile.lines = []) := by
  obtain ⟨h1, h2, _, h4, h5⟩ := setup_ok_aux env hs hp hb ho
  refine ⟨h1, h2, ?_, ?_⟩
  · intro hw
    rw [h4 hw]
    exact ⟨rfl, rfl, rfl⟩
  · intro hw
    rw [h5 hw]
    rfl

/-- Witness for C3's amended theorem on the all-success boot. -/
theorem setup_header_once_witness :
    (setup bootAllOk).phase = Phase.running ∧
    (setup bootAllOk).led = CRGB.Green ∧
    (setup bootAllOk).dataFile.lines = [headerLine] ∧
    (setup bootAllOk).dataFile.dirty = false :=
  ⟨(setup_header_once bootAllOk rfl rfl rfl rfl).1,
   (setup_header_once bootAllOk rfl rfl rfl rfl).2.1,
   ((setup_header_once bootAllOk rfl rfl rfl rfl).2.2.1 rfl).1,
   ((setup_header_once bootAllOk rfl rfl rfl rfl).2.2.1 rfl).2.2⟩

/-- One scheduler step under a failed poll never touches the file or the
phase. -/
theorem step_fail (env : TickEnv) (t : Nat) (st : SysState) (h : env.pollOk = false) :
    (step env t st).dataFile = st.dataFile ∧ (step env t st).phase = st.phase := by
  rw [step]
  by_cases hh : st.phase = Phase.halted
  · rw [if_pos hh]; exact ⟨rfl, rfl⟩
  · rw [if_neg hh, loop]
    by_cases ht : READ_INTERVAL ≤ usub32 t st.lastReadTime
    · rw [if_pos ht, record_fail env st h]
      exact ⟨rfl, rfl⟩
    · rw [if_neg ht]; exact ⟨rfl, rfl⟩

/-- C4: a tick whose sensor poll fails writes nothing — the file is exactly as
before — sets the pixel red, and never halts: over any sequence of loop
iterations whose polls all fail, the file is unchanged and the process is
still running. -/
theorem softFailure_skips_write :
    (∀ (env : TickEnv) (st : SysState), env.pollOk = false →
      (recordDataPoint env st).dataFile = st.dataFile ∧
      (recordDataPoint env st).led = CRGB.Red ∧
      (recordDataPoint env st).phase = st.phase) ∧
    (∀ (st : SysState) (ticks : List (Nat × TickEnv)), st.phase = Phase.running →
      (∀ t ∈ ticks, (t : Nat × TickEnv).2.pollOk = false) →
      (run ticks st).dataFile = st.dataFile ∧ (run ticks st).phase = Phase.running) := by
  constructor
  · intro env st h
    rw [record_fail env st h]
    exact ⟨rfl, rfl, rfl⟩
  · intro st ticks
    induction ticks generalizing st with
    | nil => intro h _; exact ⟨rfl, h⟩
    | cons t ts ih =>
      intro hrun hall
      have hstep := step_fail t.2 t.1 st (hall t (List.mem_cons_self t ts))
      have hphase : (step t.2 t.1 st).phase = Phase.running := by rw [hstep.2, hrun]
      have hrest := ih (step t.2 t.1 st) hphase (fun x hx => hall x (List.mem_cons_of_mem t hx))
      show (run ts (step t.2 t.1 st)).dataFile = st.dataFile ∧
        (run ts (step t.2 t.1 st)).phase = Phase.running
      exact ⟨by rw [hrest.1, hstep.1], hrest.2⟩

/-- Witness for C4: two consecutive failed-poll iterations leave the file of a
successfully booted process unchanged and the process running; a single failed
poll shows red. -/
theorem softFailure_skips_write_witness :
    (recordDataPoint tickFail (setup bootAllOk)).dataFile = (setup bootAllOk).dataFile ∧
    (recordDataPoint tickFail (setup bootAllOk)).led = CRGB.Red ∧
    (run [(60, tickFail), (120, tickFail)] (setup bootAllOk)).dataFile
      = (setup bootAllOk).dataFile ∧
    (run [(60, tickFail), (120, tickFail)] (setup bootAllOk)).phase = Phase.running := by
  have h1 := softFailure_skips_write.1 tickFail (setup bootAllOk) rfl
  have h2 := softFailure_skips_write.2 (setup bootAllOk) [(60, tickFail), (120, tickFail)]
    (by decide) (by decide)
  exact ⟨h1.1, h1.2.1, h2.1, h2.2⟩

/-- Recording a list of readings with every poll and write succeeding appends
exactly their formatted rows, in order, leaving no partial line and a flushed
file. -/
theorem recordAll_lines : ∀ (rs : List Reading) (st : SysState),
    st.dataFile.pending = "" → st.dataFile.dirty = false →
    (recordAll rs st).dataFile.lines = st.dataFile.lines ++ rs.map formatRow ∧
    (recordAll rs st).dataFile.pending = "" ∧
    (recordAll rs st).dataFile.dirty = false := by
  intro rs
  induction rs with
  | nil => intro st h hd; exact ⟨(List.append_nil _).symm, h, hd⟩
  | cons r rest ih =>
    intro st h hd
    have hr := record_ok { pollOk := true, reading := r, writeOk := true } st rfl rfl h
    have hnext := ih (recordDataPoint { pollOk := true, reading := r, writeOk := true } st)
      (by rw [hr]) (by rw [hr])
    refine ⟨?_, hnext.2.1, hnext.2.2⟩
    show (recordAll rest (recordDataPoint { pollOk := true, reading := r, writeOk := true } st)).dataFile.lines
      = st.dataFile.lines ++ (formatRow r :: rest.map formatRow)
    rw [hnext.1, hr]
    show (st.dataFile.lines ++ [formatRow r]) ++ rest.map formatRow
      = st.dataFile.lines ++ (formatRow r :: rest.map formatRow)
    rw [List.append_assoc]
    rfl

/-- C5: after a successful startup, recording N readings (each poll and each
write succeeding) produces a file whose lines are the header followed by the N
formatted rows `timestamp,altitude,pressure,temperature` in call order, each a
completed (newline-terminated) line — no partial line remains pending — and
the file is flushed. -/
theorem appendRow_lines (env : BootEnv) (rs : List Reading)
    (hs : env.sensorOk = true) (hp : env.setPinsOk = true) (hb : env.sdBeginOk = true)
    (ho : env.openOk = true) (hh : env.headerWriteOk = true) :
    (recordAll rs (setup env)).dataFile.lines = headerLine :: rs.map formatRow ∧
    (recordAll rs (setup env)).dataFile.pending = "" ∧
    (recordAll rs (setup env)).dataFile.dirty = false := by
  have hsetup := (setup_ok_aux env hs hp hb ho).2.2.2.1 hh
  have h := recordAll_lines rs (setup env) (by rw [hsetup]) (by rw [hsetup])
  refine ⟨?_, h.2.1, h.2.2⟩
  rw [h.1, hsetup]
  rfl

/-- Witness for C5 on the spec's end-to-end scenario: after recording the two
readings, the file holds the header and the two rows, in order. -/
theorem appendRow_lines_witness :
    (recordAll [readingA, readingB] (setup bootAllOk)).dataFile.lines =
      [headerLine, "1000,12.50,1008.20,22.10", "1050,12.70,1008.10,22.10"] ∧
    (recordAll [readingA, readingB] (setup bootAllOk)).dataFile.pending = "" := by
  have h := appendRow_lines bootAllOk [readingA, readingB] rfl rfl rfl rfl rfl
  refine ⟨?_, h.2.1⟩
  rw [h.1]
  decide

/-- C7: on each loop iteration the sample-and-record cycle runs exactly when
the computed elapsed time since `lastReadTime` reaches `READ_INTERVAL`
(50 ms); it then advances `lastReadTime` to the current time, and otherwise
the iteration leaves the state — file, pixel and marker — entirely
unchanged. -/
theorem loop_tick_iff (env : TickEnv) (now : Nat) (st : SysState) :
    (READ_INTERVAL ≤ usub32 now st.lastReadTime →
      loop env now st = { recordDataPoint env st with lastReadTime := now }) ∧
    (usub32 now st.lastReadTime < READ_INTERVAL → loop env now st = st) := by
  constructor
  · intro h; rw [loop, if_pos h]
  · intro h; rw [loop, if_neg (not_le.mpr h)]

/-- Witness for C7 at 50 and 49 elapsed milliseconds. -/
theorem loop_tick_iff_witness :
    loop tickOkA 50 (setup bootAllOk)
      = { recordDataPoint tickOkA (setup bootAllOk) with lastReadTime := 50 } ∧
    loop tickOkA 49 (setup bootAllOk) = setup bootAllOk :=
  ⟨(loop_tick_iff tickOkA 50 (setup bootAllOk)).1 (by decide),
   (loop_tick_iff tickOkA 49 (setup bootAllOk)).2 (by decide)⟩

/-- C8: the pixel is red at process start (the first color ever shown); it is
red and latched — the state never changes again — on any fatal startup
failure; it is green exactly when startup completes; each successful poll
shows green; each failed poll shows red while the process keeps running. -/
theorem led_protocol :
    (∀ env : BootEnv, (setup env).shows.head? = some CRGB.Red) ∧
    (∀ env : BootEnv,
      (env.sensorOk = false ∨ env.setPinsOk = false ∨ env.sdBeginOk = false ∨
        env.openOk = false) →
      (setup env).led = CRGB.Red ∧ ∀ ticks, run ticks (setup env) = setup env) ∧
    (∀ env : BootEnv, env.sensorOk = true → env.setPinsOk = true → env.sdBeginOk = true →
      env.openOk = true → (setup env).led = CRGB.Green) ∧
    (∀ (env : TickEnv) (st : SysState), env.pollOk = true →
      (recordDataPoint env st).led = CRGB.Green) ∧
    (∀ (env : TickEnv) (st : SysState), env.pollOk = false →
      (recordDataPoint env st).led = CRGB.Red ∧ (recordDataPoint env st).phase = st.phase) := by
  refine ⟨setup_shows_head, ?_, ?_, record_green, ?_⟩
  · intro env h
    obtain ⟨hph, hl, _, _⟩ := setup_fail_aux env h
    exact ⟨hl, fun ticks => run_halted ticks (setup env) hph⟩
  · intro env hs hp hb ho
    exact (setup_ok_aux env hs hp hb ho).2.1
  · intro env st h
    rw [record_fail env st h]
    exact ⟨rfl, rfl⟩

/-- Witness for C8 over concrete boots and ticks. -/
theorem led_protocol_witness :
    (setup bootAllOk).shows.head? = some CRGB.Red ∧
    (setup bootNoSensor).led = CRGB.Red ∧
    run [(60, tickOkA)] (setup bootNoSensor) = setup bootNoSensor ∧
    (setup bootAllOk).led = CRGB.Green ∧
    (recordDataPoint tickOkA (setup bootAllOk)).led = CRGB.Green ∧
    (recordDataPoint tickFail (setup bootAllOk)).led = CRGB.Red :=
  ⟨led_protocol.1 bootAllOk,
   (led_protocol.2.1 bootNoSensor (Or.inl rfl)).1,
   (led_protocol.2.1 bootNoSensor (Or.inl rfl)).2 [(60, tickOkA)],
   led_protocol.2.2.1 bootAllOk rfl rfl rfl rfl,
   led_protocol.2.2.2.1 tickOkA (setup bootAllOk) rfl,
   (led_protocol.2.2.2.2 tickFail (setup bootAllOk) rfl).1⟩

/-- C9: the elapsed time is computed as `(currentTime - lastReadTime)` in
32-bit wrapping arithmetic, so whenever the true elapsed interval is below
2^32 — in particular across a wrap of the millisecond counter — the computed
value equals the true interval and the 50 ms cadence comparison decides
correctly. -/
theorem elapsed_wraparound (tPrev tNow : Nat) (hle : tPrev ≤ tNow)
    (hspan : tNow - tPrev < U32) :
    usub32 (tNow % U32) (tPrev % U32) = tNow - tPrev ∧
    (READ_INTERVAL ≤ usub32 (tNow % U32) (tPrev % U32) ↔ READ_INTERVAL ≤ tNow - tPrev) := by
  have h : usub32 (tNow % U32) (tPrev % U32) = tNow - tPrev := by
    simp only [usub32, U32] at hspan ⊢
    omega
  exact ⟨h, by rw [h]⟩

/-- Witness for C9 across the 32-bit wrap: true clocks 2^32 − 6 and 2^32 + 44,
whose stored 32-bit values are 4294967290 and 44, give a computed elapsed time
of exactly 50. -/
theorem elapsed_wraparound_witness :
    usub32 (4294967340 % U32) (4294967290 % U32) = 50 ∧
    (READ_INTERVAL ≤ usub32 (4294967340 % U32) (4294967290 % U32) ↔
      READ_INTERVAL ≤ 4294967340 - 4294967290) :=
  ⟨(elapsed_wraparound 4294967290 4294967340 (by decide) (by decide)).1,
   (elapsed_wraparound 4294967290 4294967340 (by decide) (by decide)).2⟩

/-- C10: after any successful poll the pixel is set green unconditionally —
the print and flush results are never inspected — so even when every storage
write of the row is lost (no line and no pending text is added), the status
still shows green and the write failure is never signalled. -/
theorem green_despite_write_failure (env : TickEnv) (st : SysState) (h : env.pollOk = true) :
    (recordDataPoint env st).led = CRGB.Green ∧
    (env.writeOk = false →
      (recordDataPoint env st).dataFile.lines = st.dataFile.lines ∧
      (recordDataPoint env st).dataFile.pending = st.dataFile.pending) := by
  refine ⟨record_green env st h, ?_⟩
  intro hw
  rw [recordDataPoint, if_pos h]
  simp [DFile.print, DFile.println, DFile.flush, fastLEDShow, hw]

/-- Witness for C10: a poll succeeding while storage rejects the writes leaves
the booted file's lines untouched, yet the pixel shows green. -/
theorem green_despite_write_failure_witness :
    (recordDataPoint tickNoWrite (setup bootAllOk)).led = CRGB.Green ∧
    (recordDataPoint tickNoWrite (setup bootAllOk)).dataFile.lines
      = (setup bootAllOk).dataFile.lines :=
  ⟨(green_despite_write_failure tickNoWrite (setup bootAllOk) rfl).1,
   ((green_despite_write_failure tickNoWrite (setup bootAllOk) rfl).2 rfl).1⟩

end FDR
